import Mathlib

/-!
Verification of the traffic-analysis video pipeline
(examples/traffic_analysis/script.py) against its specification.

The script wires external collaborators (a YOLO detector, the ByteTrack
tracker, a box annotator, video source and sinks) into a per-frame loop.
The script itself is embedded from the source; collaborator behaviour that
is not part of the source tree is modelled from the specification, and each
such definition says so in its doc comment.
-/

namespace TrafficAnalysis

/-- A pixel buffer.  The raster layout is irrelevant to the claims; a frame
is a flat list of pixel samples (bytes). -/
abbrev Frame := List Nat

/-- An axis-aligned bounding box with integer corner coordinates
(x1, y1) top-left and (x2, y2) bottom-right. -/
structure Box where
  x1 : Int
  y1 : Int
  x2 : Int
  y2 : Int
deriving DecidableEq, Repr

/-- One detection of sv.Detections: bounding box, confidence score,
optional class identifier and optional tracker identifier (absent until
the tracker assigns one).  The mask slot of the Python tuple is always
None in this pipeline and is omitted. -/
structure Detection where
  box : Box
  confidence : ℚ
  classId : Option Nat
  trackerId : Option Nat
deriving DecidableEq, Repr

/-- Area of a box, clipped at zero for degenerate coordinates. -/
def boxArea (b : Box) : Int :=
  max 0 (b.x2 - b.x1) * max 0 (b.y2 - b.y1)

/-- Area of the intersection of two boxes, zero when they do not meet. -/
def interArea (a b : Box) : Int :=
  max 0 (min a.x2 b.x2 - max a.x1 b.x1) * max 0 (min a.y2 b.y2 - max a.y1 b.y1)

/-- Intersection-over-union of two boxes as a rational in [0, 1]. -/
def boxIoU (a b : Box) : ℚ :=
  let i : Int := interArea a b
  let u : Int := boxArea a + boxArea b - i
  if u = 0 then 0 else (i : ℚ) / (u : ℚ)

/-- Confidence comparison used to order candidate detections before
overlap suppression: a comes before b when its confidence is at least b's. -/
def confGe (a b : Detection) : Prop := b.confidence ≤ a.confidence

instance : DecidableRel confGe := fun a b =>
  inferInstanceAs (Decidable (b.confidence ≤ a.confidence))

/-- Insert a detection into a list kept in decreasing confidence order. -/
def sortInsert (d : Detection) : List Detection → List Detection
  | [] => [d]
  | e :: es => if e.confidence < d.confidence then d :: e :: es else e :: sortInsert d es

/-- Sort candidate detections by decreasing confidence (insertion sort),
as the score sort performed ahead of non-maximum suppression. -/
def sortByConf : List Detection → List Detection
  | [] => []
  | d :: ds => sortInsert d (sortByConf ds)

/-- Whether a candidate is suppressed by an already kept detection: same
class and overlap strictly above the overlap-suppression threshold. -/
def suppressedBy (iouThr : ℚ) (kept : List Detection) (d : Detection) : Bool :=
  kept.any (fun k => k.classId == d.classId && iouThr < boxIoU k.box d.box)

/-- Greedy non-maximum suppression over a confidence-ordered candidate
list: keep a detection unless a previously kept one suppresses it. -/
def nmsAux (iouThr : ℚ) (kept : List Detection) : List Detection → List Detection
  | [] => []
  | d :: ds =>
    if suppressedBy iouThr kept d then nmsAux iouThr kept ds
    else d :: nmsAux iouThr (d :: kept) ds

/-- Non-maximum suppression starting from an empty kept set. -/
def nmsGreedy (iouThr : ℚ) (l : List Detection) : List Detection :=
  nmsAux iouThr [] l

/-- Modelled from the spec: the detection step of
model(frame, conf=confidence_threshold, iou=iou_threshold) followed by
sv.Detections.from_ultralytics, neither of which is under src.  Per the
spec the raw candidates are score-sorted, candidates with confidence below
the confidence threshold are discarded, and same-class candidates whose
pairwise overlap exceeds the overlap-suppression threshold are removed
keeping the higher-confidence box.  The raw candidate list stands for the
model output on the frame. -/
def detectPost (raw : List Detection) (confThr iouThr : ℚ) : List Detection :=
  nmsGreedy iouThr ((sortByConf raw).filter (fun d => decide (confThr ≤ d.confidence)))

/-- A live track: a stable identifier and the last associated box.
Modelled from the spec: the Track entity of sv.ByteTrack, which is not
under src; motion state beyond the last box and the retirement policy are
tracker-internal and external to the spec. -/
structure Track where
  tid : Nat
  box : Box
deriving DecidableEq, Repr

/-- Tracker state: the live tracks and the monotonically increasing
identifier counter, starting at a fixed value with no live tracks. -/
structure TrackerState where
  tracks : List Track
  nextId : Nat
deriving DecidableEq, Repr

/-- The fresh tracker built by sv.ByteTrack(): empty track mapping,
identifier counter at the fixed start value 1. -/
def initialTrackerState : TrackerState := { tracks := [], nextId := 1 }

/-- Overlap level at which a detection is considered the continuation of
a live track: one half, written in lowest terms. -/
def matchThr : ℚ := ⟨1, 2, by decide, by decide⟩

/-- Association of one detection with the live tracks (proximity
heuristic: first track whose box overlap with the detection is at least
one half).  Returns the matched identifier and the tracks with the
matched box refreshed, or none when no track matches. -/
def assocTrack : List Track → Detection → Option (Nat × List Track)
  | [], _ => none
  | t :: ts, d =>
    if matchThr ≤ boxIoU t.box d.box then some (t.tid, { t with box := d.box } :: ts)
    else
      match assocTrack ts d with
      | some (i, ts2) => some (i, t :: ts2)
      | none => none

/-- Activation threshold below which an unmatched detection does not
spawn a new track and is dropped from the output: one quarter, written
in lowest terms. -/
def activationThr : ℚ := ⟨1, 4, by decide, by decide⟩

/-- One pass of the tracker over the incoming detections, threading the
identifier counter and the live tracks: a matched detection takes the
matched track identifier, an unmatched detection of sufficient
confidence spawns a fresh track and takes its new identifier, and any
other detection is dropped. -/
def updateAux (n : Nat) (ts : List Track) : List Detection → Nat × List Track × List Detection
  | [] => (n, ts, [])
  | d :: ds =>
    match assocTrack ts d with
    | some (i, ts2) =>
        let r := updateAux n ts2 ds
        (r.1, r.2.1, { d with trackerId := some i } :: r.2.2)
    | none =>
        if activationThr ≤ d.confidence then
          let r := updateAux (n + 1) (ts ++ [{ tid := n, box := d.box }]) ds
          (r.1, r.2.1, { d with trackerId := some n } :: r.2.2)
        else updateAux n ts ds

/-- Modelled from the spec: sv.ByteTrack.update_with_detections, which is
not under src.  Per the spec it associates each incoming detection with a
live track or spawns a fresh track with a newly allocated identifier,
drops detections it cannot associate, and emits only detections paired
with a live track identifier this call. -/
def byteTrackUpdate (st : TrackerState) (ds : List Detection) :
    TrackerState × List Detection :=
  let r := updateAux st.nextId st.tracks ds
  ({ tracks := r.2.1, nextId := r.1 }, r.2.2)

/-- Python str() of an optional tracker identifier, as interpolated by
the f-string: the digits of the number, or None when absent. -/
def pyStr : Option Nat → String
  | some i => toString i
  | none => "None"

/-- The label built for one detection by the list comprehension at
lines 56-59 of the script: the hash sign followed by the tracker
identifier read from the iterated detection tuple. -/
def mkLabel (d : Detection) : String := "#" ++ pyStr d.trackerId

/-- The per-frame label list: one label per detection, in detection
order. -/
def mkLabels (ds : List Detection) : List String := ds.map mkLabel

/-- The class override at line 55 of the script,
detections.class_id = np.zeros(len(detections)): every detection's class
identifier is overwritten with the canonical value 0. -/
def setClassZero (ds : List Detection) : List Detection :=
  ds.map (fun d => { d with classId := some 0 })

/-- The detections handed to tracker.update_with_detections in
process_frame: the detection step output with every class identifier
forced to the canonical value. -/
def trackerInput (raw : List Detection) (confThr iouThr : ℚ) : List Detection :=
  setClassZero (detectPost raw confThr iouThr)

/-- Modelled from the spec: the drawing performed by
sv.BoxAnnotator.annotate on the buffer passed as scene, which is not
under src.  Per the spec it renders each box and its label onto that
buffer; the raster details are abstracted into a deterministic in-place
transformation of the scene bytes driven by the boxes and labels. -/
def drawOn (scene : Frame) (ds : List Detection) (labels : List String) : Frame :=
  (ds.zip labels).foldl
    (fun s dl =>
      s.set (Int.toNat dl.1.box.x1 % (s.length + 1)) dl.2.length)
    scene

/-- frame.copy() at line 61 of the script: a fresh buffer holding the
same bytes as the source frame. -/
def copyFrame (f : Frame) : Frame := f

/-- The value computed by process_frame once the model output for the
frame is in hand, lines 53-63 of the script: normalize detections, force
the class identifiers, update the tracker, build the labels, and draw on
a copy of the frame.  Returns the annotated frame and the new tracker
state. -/
def processFrameCore (frame : Frame) (raw : List Detection) (st : TrackerState)
    (confThr iouThr : ℚ) : Frame × TrackerState :=
  let dets := trackerInput raw confThr iouThr
  let r := byteTrackUpdate st dets
  let labels := mkLabels r.2
  (drawOn (copyFrame frame) r.2 labels, r.1)

/-- A heap of pixel buffers, addressed by position; allocation appends.
Makes the buffer aliasing of process_frame explicit: annotate mutates
exactly the buffer passed as scene. -/
structure Heap where
  bufs : List Frame
deriving DecidableEq, Repr

/-- In-place annotation of the buffer at one heap address, as performed
by box_annotator.annotate on its scene argument. -/
def annotateAt (h : Heap) (a : Nat) (ds : List Detection) (labels : List String) :
    Heap :=
  { bufs := h.bufs.set a (drawOn (h.bufs.getD a []) ds labels) }

/-- process_frame with buffer mutation made explicit: the input frame
lives at address a; frame.copy() allocates a fresh buffer with the same
bytes at the end of the heap, and annotate then mutates only that fresh
buffer.  Returns the heap, the address of the annotated frame and the
new tracker state. -/
def processFrameHeap (h : Heap) (a : Nat) (raw : List Detection)
    (st : TrackerState) (confThr iouThr : ℚ) : Heap × Nat × TrackerState :=
  let frame := h.bufs.getD a []
  let dets := trackerInput raw confThr iouThr
  let r := byteTrackUpdate st dets
  let labels := mkLabels r.2
  let ca := h.bufs.length
  let h1 : Heap := { bufs := h.bufs ++ [copyFrame frame] }
  (annotateAt h1 ca r.2 labels, ca, r.1)

/-- The error kinds a pipeline stage can raise. -/
inductive Err where
  | detectionFailure
  | sinkFailure
deriving DecidableEq, Repr

/-- process_frame as called per frame: the model invocation at lines
50-52 may fail (DetectionFailure), in which case nothing further runs for
the frame; otherwise lines 53-63 run on the model output.  The model
argument stands for the external detector on a frame. -/
def processFrameE (model : Frame → Except Err (List Detection)) (frame : Frame)
    (st : TrackerState) (confThr iouThr : ℚ) : Except Err (Frame × TrackerState) :=
  match model frame with
  | Except.error e => Except.error e
  | Except.ok raw => Except.ok (processFrameCore frame raw st confThr iouThr)

/-- The quit test at line 37 of the script,
cv2.waitKey(1) & 0xFF == ord(q): the key code returned by the
non-blocking poll, masked to its low byte, equals the code of the
letter q.  Python bitwise AND with 0xFF on an arbitrary-precision
integer is the nonnegative remainder modulo 256; a poll that sees no
key returns -1. -/
def quitSignal (k : Int) : Bool :=
  k % 256 == ((Char.toNat 'q' : Nat) : Int)

/-- Outcome of a File-variant run of process_video: the propagated
result, the frames written to the sink in order, the frames on which
tracker.update_with_detections was invoked in order, and whether the
video-writer resource was released. -/
structure FileRun where
  result : Except Err Unit
  written : List Frame
  updateTrace : List Frame
  released : Bool

/-- The File-variant frame loop at lines 24-29 of the script: fetch the
next frame, run process_frame on it, write the annotated frame, then
continue; a stage failure aborts the loop and propagates.  The writeErr
argument stands for the external sink accepting or failing a write.
Returns the result, the written frames and the tracker-update trace. -/
def fileLoop (model : Frame → Except Err (List Detection))
    (writeErr : Frame → Option Err) (confThr iouThr : ℚ) :
    TrackerState → List Frame → Except Err Unit × List Frame × List Frame
  | _, [] => (Except.ok (), [], [])
  | st, f :: fs =>
    match processFrameE model f st confThr iouThr with
    | Except.error e => (Except.error e, [], [])
    | Except.ok (af, st2) =>
      match writeErr af with
      | some e => (Except.error e, [], [f])
      | none =>
        let r := fileLoop model writeErr confThr iouThr st2 fs
        (r.1, af :: r.2.1, f :: r.2.2)

/-- The File variant of process_video, lines 23-29: the frame loop runs
inside with sv.VideoSink(...) as sink, so the writer resource is
released on every exit of the block, normal or exceptional, before the
result propagates. -/
def runFileVariant (model : Frame → Except Err (List Detection))
    (writeErr : Frame → Option Err) (confThr iouThr : ℚ)
    (st : TrackerState) (frames : List Frame) : FileRun :=
  let r := fileLoop model writeErr confThr iouThr st frames
  { result := r.1, written := r.2.1, updateTrace := r.2.2, released := true }

/-- Outcome of a Display-variant run of process_video: the propagated
result, the frames shown in order, the frames on which
tracker.update_with_detections was invoked in order, and whether the
display resource was released (cv2.destroyAllWindows ran). -/
structure DisplayRun where
  result : Except Err Unit
  displayed : List Frame
  updateTrace : List Frame
  released : Bool

/-- The Display-variant frame loop at lines 31-38 of the script: fetch
the next frame, run process_frame, show the annotated frame, poll the
keyboard once with a short timeout, and break out of the loop on the
quit signal; a stage failure aborts the loop and propagates.  The keys
argument gives the key code observed by the poll after the i-th frame. -/
def displayLoop (model : Frame → Except Err (List Detection))
    (confThr iouThr : ℚ) (keys : Nat → Int) :
    Nat → TrackerState → List Frame → Except Err Unit × List Frame × List Frame
  | _, _, [] => (Except.ok (), [], [])
  | i, st, f :: fs =>
    match processFrameE model f st confThr iouThr with
    | Except.error e => (Except.error e, [], [])
    | Except.ok (af, st2) =>
      if quitSignal (keys i) then (Except.ok (), [af], [f])
      else
        let r := displayLoop model confThr iouThr keys (i + 1) st2 fs
        (r.1, af :: r.2.1, f :: r.2.2)

/-- The Display variant of process_video, lines 31-39: the frame loop
runs with no surrounding resource scope, and cv2.destroyAllWindows at
line 39 runs only when the loop exits normally (completion or quit
break); an exception propagates past it, leaving the display resource
unreleased. -/
def runDisplayVariant (model : Frame → Except Err (List Detection))
    (confThr iouThr : ℚ) (keys : Nat → Int)
    (st : TrackerState) (frames : List Frame) : DisplayRun :=
  let r := displayLoop model confThr iouThr keys 0 st frames
  { result := r.1, displayed := r.2.1, updateTrace := r.2.2,
    released := match r.1 with | Except.ok _ => true | Except.error _ => false }

/-- The tracker state reached after process_frame has run on a stretch
of frames in order, threading the state through each frame; a detection
failure cuts the stretch short (that case is unused under the
error-free-stretch hypotheses below). -/
def stateAfter (model : Frame → Except Err (List Detection)) (confThr iouThr : ℚ) :
    TrackerState → List Frame → TrackerState
  | st, [] => st
  | st, f :: fs =>
    match model f with
    | Except.error _ => st
    | Except.ok raw =>
        stateAfter model confThr iouThr (processFrameCore f raw st confThr iouThr).2 fs

/-- All sink writes succeed along a stretch of frames: for each frame
whose detection succeeds, the write of the annotated frame produced at
the tracker state reached there returns no error. -/
def writesOk (model : Frame → Except Err (List Detection))
    (writeErr : Frame → Option Err) (confThr iouThr : ℚ) :
    TrackerState → List Frame → Prop
  | _, [] => True
  | st, f :: fs =>
    match model f with
    | Except.error _ => True
    | Except.ok raw =>
        writeErr (processFrameCore f raw st confThr iouThr).1 = none ∧
        writesOk model writeErr confThr iouThr
          (processFrameCore f raw st confThr iouThr).2 fs

/- Lemmas for claim C9: raising the confidence threshold shrinks the
detection set.  The filtered, sorted candidate list at the higher
threshold is a prefix of the one at the lower threshold, and greedy
suppression of a prefix keeps a subset. -/

/-- Membership in sortInsert. -/
theorem mem_sortInsert (x d : Detection) (l : List Detection) :
    x ∈ sortInsert d l ↔ x = d ∨ x ∈ l := by
  induction l with
  | nil => simp [sortInsert]
  | cons e es ih =>
      by_cases h : e.confidence < d.confidence
      · simp [sortInsert, h]
      · simp [sortInsert, h, ih]
        tauto

/-- sortInsert preserves decreasing confidence order. -/
theorem pairwise_sortInsert (d : Detection) (l : List Detection)
    (hl : l.Pairwise confGe) : (sortInsert d l).Pairwise confGe := by
  induction l with
  | nil => simp [sortInsert, List.pairwise_singleton]
  | cons e es ih =>
      rcases List.pairwise_cons.mp hl with ⟨he, hes⟩
      by_cases h : e.confidence < d.confidence
      · rw [sortInsert, if_pos h]
        refine List.pairwise_cons.mpr ⟨?_, hl⟩
        intro x hx
        rcases List.mem_cons.mp hx with rfl | hx
        · exact le_of_lt h
        · exact le_trans (he x hx) (le_of_lt h)
      · rw [sortInsert, if_neg h]
        refine List.pairwise_cons.mpr ⟨?_, ih hes⟩
        intro x hx
        rcases (mem_sortInsert x d es).mp hx with rfl | hx
        · exact not_lt.mp h
        · exact he x hx

/-- sortByConf produces a list in decreasing confidence order. -/
theorem pairwise_sortByConf (l : List Detection) :
    (sortByConf l).Pairwise confGe := by
  induction l with
  | nil => simp [sortByConf]
  | cons d ds ih => exact pairwise_sortInsert d (sortByConf ds) ih

/-- On a decreasing-confidence list, filtering by a lower bound on the
confidence is taking the initial segment satisfying it. -/
theorem filter_eq_takeWhile_of_sorted (t : ℚ) (l : List Detection)
    (hl : l.Pairwise confGe) :
    l.filter (fun d => decide (t ≤ d.confidence))
      = l.takeWhile (fun d => decide (t ≤ d.confidence)) := by
  induction l with
  | nil => rfl
  | cons d ds ih =>
      rcases List.pairwise_cons.mp hl with ⟨hd, hds⟩
      by_cases h : t ≤ d.confidence
      · simp [List.filter_cons, List.takeWhile_cons, h, ih hds]
      · have hnone : ∀ x ∈ ds, ¬ (t ≤ x.confidence) := by
          intro x hx htx
          exact h (le_trans htx (hd x hx))
        have : ds.filter (fun d => decide (t ≤ d.confidence)) = [] := by
          simp only [List.filter_eq_nil_iff]
          intro x hx
          simpa using hnone x hx
        simp [List.filter_cons, List.takeWhile_cons, h, this]

/-- Tightening the predicate turns the initial segment into a prefix of
the looser one. -/
theorem takeWhile_mono_prefix (t1 t2 : ℚ) (h12 : t1 ≤ t2) (l : List Detection) :
    ∃ r, l.takeWhile (fun d => decide (t1 ≤ d.confidence))
      = l.takeWhile (fun d => decide (t2 ≤ d.confidence)) ++ r := by
  induction l with
  | nil => exact ⟨[], rfl⟩
  | cons d ds ih =>
      by_cases h2 : t2 ≤ d.confidence
      · have h1 : t1 ≤ d.confidence := le_trans h12 h2
        rcases ih with ⟨r, hr⟩
        exact ⟨r, by simp [List.takeWhile_cons, h1, h2, hr]⟩
      · by_cases h1 : t1 ≤ d.confidence
        · exact ⟨d :: ds.takeWhile (fun d => decide (t1 ≤ d.confidence)),
            by simp [List.takeWhile_cons, h1, h2]⟩
        · exact ⟨[], by simp [List.takeWhile_cons, h1, h2]⟩

/-- A detection kept by greedy suppression of a list is kept when the
list is extended on the right. -/
theorem mem_nmsAux_append (iouThr : ℚ) (kept l1 l2 : List Detection)
    (d : Detection) (hd : d ∈ nmsAux iouThr kept l1) :
    d ∈ nmsAux iouThr kept (l1 ++ l2) := by
  induction l1 generalizing kept with
  | nil => simp [nmsAux] at hd
  | cons x xs ih =>
      rw [List.cons_append]
      cases hs : suppressedBy iouThr kept x with
      | true =>
          rw [nmsAux, if_pos hs] at hd
          rw [nmsAux, if_pos hs]
          exact ih kept hd
      | false =>
          have hs' : ¬ (suppressedBy iouThr kept x = true) := by simp [hs]
          rw [nmsAux, if_neg hs'] at hd
          rw [nmsAux, if_neg hs']
          rcases List.mem_cons.mp hd with rfl | hd
          · exact List.mem_cons_self _ _
          · exact List.mem_cons_of_mem _ (ih (x :: kept) hd)

/-- Raising the confidence threshold keeps a sub-list of the detections:
the sorted, filtered candidates at the higher threshold form a prefix of
the ones at the lower threshold, so greedy suppression keeps a subset. -/
theorem detectPost_antitone (raw : List Detection) (t1 t2 iouThr : ℚ)
    (h12 : t1 ≤ t2) (d : Detection) (hd : d ∈ detectPost raw t2 iouThr) :
    d ∈ detectPost raw t1 iouThr := by
  have hsorted := pairwise_sortByConf raw
  have e1 := filter_eq_takeWhile_of_sorted t1 (sortByConf raw) hsorted
  have e2 := filter_eq_takeWhile_of_sorted t2 (sortByConf raw) hsorted
  rcases takeWhile_mono_prefix t1 t2 h12 (sortByConf raw) with ⟨r, hr⟩
  unfold detectPost nmsGreedy at hd ⊢
  rw [e2] at hd
  rw [e1, hr]
  exact mem_nmsAux_append iouThr [] _ r d hd

/-- Claim C9: for any fixed frame and any two confidence thresholds
t1 < t2 in [0, 1], the detection set produced by the detection step at
t2 is a subset of the one produced at t1 on the same frame: filtering by
confidence is antitone in the threshold. -/
theorem detect_threshold_subset (raw : List Detection) (t1 t2 iouThr : ℚ)
    (ht0 : 0 ≤ t1) (ht1 : t2 ≤ 1) (h12 : t1 < t2) :
    ∀ d ∈ detectPost raw t2 iouThr, d ∈ detectPost raw t1 iouThr :=
  fun d hd => detectPost_antitone raw t1 t2 iouThr (le_of_lt h12) d hd

/-- Witness for claim C9 at a concrete frame and thresholds. -/
theorem detect_threshold_subset_witness :
    (0 : ℚ) ≤ 0 ∧ (1 : ℚ) ≤ 1 ∧ (0 : ℚ) < 1 ∧
    (⟨⟨0, 0, 10, 10⟩, 1, some 0, none⟩ : Detection)
      ∈ detectPost [⟨⟨0, 0, 10, 10⟩, 1, some 0, none⟩] (0 : ℚ) 0 :=
  ⟨by decide, by decide, by decide,
    detect_threshold_subset [⟨⟨0, 0, 10, 10⟩, 1, some 0, none⟩]
      (0 : ℚ) (1 : ℚ) (0 : ℚ) (by decide) (by decide) (by decide)
      ⟨⟨0, 0, 10, 10⟩, 1, some 0, none⟩ (by decide)⟩

/-- Claim C2: before the tracker update is invoked on any frame, the
class identifier of every detection produced by the detector adapter is
overwritten with the single canonical value 0, uniformly and
unconditionally, regardless of the class the model reported. -/
theorem tracker_input_class_canonical (raw : List Detection) (confThr iouThr : ℚ) :
    ∀ d ∈ trackerInput raw confThr iouThr, d.classId = some 0 := by
  intro d hd
  rcases List.mem_map.mp hd with ⟨x, _, rfl⟩
  rfl

/-- Witness for claim C2 at a concrete raw detection list. -/
theorem tracker_input_class_canonical_witness :
    (⟨⟨0, 0, 10, 10⟩, 1, some 0, none⟩ : Detection)
      ∈ trackerInput [⟨⟨0, 0, 10, 10⟩, 1, some 7, none⟩] (0 : ℚ) 0 ∧
    (⟨⟨0, 0, 10, 10⟩, 1, some 0, none⟩ : Detection).classId = some 0 :=
  ⟨by decide,
    tracker_input_class_canonical [⟨⟨0, 0, 10, 10⟩, 1, some 7, none⟩]
      (0 : ℚ) (0 : ℚ) ⟨⟨0, 0, 10, 10⟩, 1, some 0, none⟩ (by decide)⟩

/-- Claim C8: for every detection set returned by the tracker, the label
list passed to the annotator has the same length, and the label at index
i is exactly the hash sign followed by the tracker identifier of the
detection at index i. -/
theorem labels_align_with_detections (st : TrackerState) (ds : List Detection) :
    (mkLabels (byteTrackUpdate st ds).2).length = (byteTrackUpdate st ds).2.length ∧
    ∀ i : Nat, (mkLabels (byteTrackUpdate st ds).2).get? i
      = ((byteTrackUpdate st ds).2.get? i).map (fun d => "#" ++ pyStr d.trackerId) := by
  constructor
  · simp [mkLabels]
  · intro i
    simp only [mkLabels, List.get?_map]
    cases (byteTrackUpdate st ds).2.get? i <;> rfl

/-- Claim C5: in the File variant of process_video, the video-writer
resource is released on every exit path of the frame loop, including
when any downstream stage raises: the loop runs inside the
with-statement scope of the sink, whose exit action runs
unconditionally. -/
theorem file_sink_released_on_every_path (model : Frame → Except Err (List Detection))
    (writeErr : Frame → Option Err) (confThr iouThr : ℚ)
    (st : TrackerState) (frames : List Frame) :
    (runFileVariant model writeErr confThr iouThr st frames).released = true := rfl

/-- Claim C10: the quit signal is exactly a key event whose low byte
equals the character q; any other key, or no key within the poll
timeout (code -1), continues the loop to the next frame. -/
theorem quit_key_is_letter_q (k : Int) (f0 f1 : Frame) (confThr iouThr : ℚ) :
    (quitSignal k = true ↔ k % 256 = ((Char.toNat 'q' : Nat) : Int)) ∧
    (runDisplayVariant (fun _ => Except.ok []) confThr iouThr (fun _ => k)
        initialTrackerState [f0, f1]).updateTrace
      = (if k % 256 = ((Char.toNat 'q' : Nat) : Int) then [f0] else [f0, f1]) := by
  constructor
  · simp [quitSignal]
  · by_cases hq : k % 256 = (113 : Int)
    · simp [runDisplayVariant, displayLoop, processFrameE, quitSignal, hq]
    · simp [runDisplayVariant, displayLoop, processFrameE, quitSignal, hq]

/-- Every detection kept by the tracker pass carries an assigned
identifier: matched detections take the matched track identifier,
spawning detections take the fresh identifier, and all others are
dropped. -/
theorem updateAux_output_ids (ds : List Detection) :
    ∀ n ts, ∀ d ∈ (updateAux n ts ds).2.2, ∃ i, d.trackerId = some i := by
  induction ds with
  | nil => intro n ts d hd; simp [updateAux] at hd
  | cons x xs ih =>
      intro n ts d hd
      rw [updateAux] at hd
      cases ha : assocTrack ts x with
      | some p =>
          obtain ⟨i, ts2⟩ := p
          rw [ha] at hd
          simp only [List.mem_cons] at hd
          rcases hd with rfl | hd
          · exact ⟨i, rfl⟩
          · exact ih n ts2 d hd
      | none =>
          rw [ha] at hd
          by_cases hc : activationThr ≤ x.confidence
          · rw [if_pos hc] at hd
            simp only [List.mem_cons] at hd
            rcases hd with rfl | hd
            · exact ⟨n, rfl⟩
            · exact ih (n + 1) (ts ++ [{ tid := n, box := x.box }]) d hd
          · rw [if_neg hc] at hd
            exact ih n ts d hd

/-- Claim C1: every detection in the detection set returned by the
tracker update carries a non-null track identifier — detections the
tracker cannot associate with a live track are dropped rather than
passed through — so the label built for any emitted detection formats a
real identifier, never a null one. -/
theorem tracker_output_ids_nonnull (st : TrackerState) (ds : List Detection) :
    ∀ d ∈ (byteTrackUpdate st ds).2,
      ∃ i, d.trackerId = some i ∧ mkLabel d = "#" ++ toString i := by
  intro d hd
  rcases updateAux_output_ids ds st.nextId st.tracks d hd with ⟨i, hi⟩
  exact ⟨i, hi, by simp [mkLabel, pyStr, hi]⟩

/-- Witness for claim C1: a fresh tracker spawns identifier 1 for a
confident detection and emits it with that identifier. -/
theorem tracker_output_ids_nonnull_witness :
    (⟨⟨0, 0, 10, 10⟩, 1, some 0, some 1⟩ : Detection)
      ∈ (byteTrackUpdate initialTrackerState [⟨⟨0, 0, 10, 10⟩, 1, some 0, none⟩]).2 ∧
    ∃ i, (⟨⟨0, 0, 10, 10⟩, 1, some 0, some 1⟩ : Detection).trackerId = some i ∧
      mkLabel ⟨⟨0, 0, 10, 10⟩, 1, some 0, some 1⟩ = "#" ++ toString i :=
  ⟨by decide,
    tracker_output_ids_nonnull initialTrackerState [⟨⟨0, 0, 10, 10⟩, 1, some 0, none⟩]
      ⟨⟨0, 0, 10, 10⟩, 1, some 0, some 1⟩ (by decide)⟩

/-- Claim C3: the annotation step of process_frame never mutates the
input frame: annotate draws on the freshly allocated copy of the frame
buffer, so the buffer holding the input frame is byte-equal before and
after the call. -/
theorem annotate_does_not_mutate_input (h : Heap) (a : Nat) (raw : List Detection)
    (st : TrackerState) (confThr iouThr : ℚ) (ha : a < h.bufs.length) :
    (processFrameHeap h a raw st confThr iouThr).1.bufs.get? a = h.bufs.get? a := by
  have hne : h.bufs.length ≠ a := Nat.ne_of_gt ha
  simp only [processFrameHeap, annotateAt]
  rw [List.get?_set_ne _ _ hne]
  exact List.get?_append ha

/-- Witness for claim C3 at a concrete one-buffer heap. -/
theorem annotate_does_not_mutate_input_witness :
    0 < (Heap.mk [[5, 6, 7]]).bufs.length ∧
    (processFrameHeap (Heap.mk [[5, 6, 7]]) 0 [] initialTrackerState 0 0).1.bufs.get? 0
      = (Heap.mk [[5, 6, 7]]).bufs.get? 0 :=
  ⟨by decide,
    annotate_does_not_mutate_input (Heap.mk [[5, 6, 7]]) 0 [] initialTrackerState 0 0
      (by decide)⟩

/-- In an error-free File-variant run the loop calls the tracker on each
fetched frame exactly once, in order, and completes normally. -/
theorem fileLoop_trace_ok (model : Frame → Except Err (List Detection))
    (writeErr : Frame → Option Err) (confThr iouThr : ℚ) (frames : List Frame) :
    ∀ st, (∀ f ∈ frames, ∃ r, model f = Except.ok r) → (∀ g, writeErr g = none) →
      (fileLoop model writeErr confThr iouThr st frames).2.2 = frames ∧
      (fileLoop model writeErr confThr iouThr st frames).1 = Except.ok () := by
  induction frames with
  | nil => intro st _ _; exact ⟨rfl, rfl⟩
  | cons f fs ih =>
      intro st hm hw
      obtain ⟨raw, hraw⟩ := hm f (List.mem_cons_self f fs)
      have ihr := ih (processFrameCore f raw st confThr iouThr).2
        (fun g hg => hm g (List.mem_cons_of_mem f hg)) hw
      simp only [fileLoop, processFrameE, hraw, hw]
      exact ⟨by rw [ihr.1], ihr.2⟩

/-- In an error-free Display-variant run with no quit signal, the loop
calls the tracker on each fetched frame exactly once, in order, and
completes normally. -/
theorem displayLoop_trace_ok (model : Frame → Except Err (List Detection))
    (confThr iouThr : ℚ) (keys : Nat → Int) (frames : List Frame) :
    ∀ j st, (∀ f ∈ frames, ∃ r, model f = Except.ok r) →
      (∀ m, quitSignal (keys m) = false) →
      (displayLoop model confThr iouThr keys j st frames).2.2 = frames ∧
      (displayLoop model confThr iouThr keys j st frames).1 = Except.ok () := by
  induction frames with
  | nil => intro j st _ _; exact ⟨rfl, rfl⟩
  | cons f fs ih =>
      intro j st hm hq
      obtain ⟨raw, hraw⟩ := hm f (List.mem_cons_self f fs)
      have ihr := ih (j + 1) (processFrameCore f raw st confThr iouThr).2
        (fun g hg => hm g (List.mem_cons_of_mem f hg)) hq
      simp only [displayLoop, processFrameE, hraw, hq, Bool.false_eq_true, if_false]
      exact ⟨by rw [ihr.1], ihr.2⟩

/-- Claim C4: the tracker update is called exactly once per frame
yielded by the frame source, strictly in presentation order, in both the
File-sink and the Display-sink branches of an error-free run with no
quit signal; the strictly sequential loop fetches a frame only after the
previous frame's write or display completed. -/
theorem update_called_once_per_frame (model : Frame → Except Err (List Detection))
    (writeErr : Frame → Option Err) (confThr iouThr : ℚ) (keys : Nat → Int)
    (st : TrackerState) (frames : List Frame)
    (hm : ∀ f ∈ frames, ∃ r, model f = Except.ok r)
    (hw : ∀ g, writeErr g = none)
    (hq : ∀ m, quitSignal (keys m) = false) :
    (runFileVariant model writeErr confThr iouThr st frames).updateTrace = frames ∧
    (runDisplayVariant model confThr iouThr keys st frames).updateTrace = frames :=
  ⟨(fileLoop_trace_ok model writeErr confThr iouThr frames st hm hw).1,
    (displayLoop_trace_ok model confThr iouThr keys frames 0 st hm hq).1⟩

/-- Witness for claim C4 on a concrete two-frame video. -/
theorem update_called_once_per_frame_witness :
    (runFileVariant (fun _ => Except.ok []) (fun _ => none) 0 0 initialTrackerState
        [[0], [1]]).updateTrace = [[0], [1]] ∧
    (runDisplayVariant (fun _ => Except.ok []) 0 0 (fun _ => -1) initialTrackerState
        [[0], [1]]).updateTrace = [[0], [1]] := by
  have hq : ∀ m : Nat, quitSignal ((fun _ => (-1 : Int)) m) = false := by
    intro m
    show quitSignal (-1) = false
    decide
  exact update_called_once_per_frame (fun _ => Except.ok []) (fun _ => none) 0 0
    (fun _ => -1) initialTrackerState [[0], [1]]
    (fun _ _ => ⟨[], rfl⟩) (fun _ => rfl) hq

/-- A stage failure — a detection failure on the frame following an
error-free processed stretch, or a sink-write failure on that frame's
annotated output — propagates out of the File-variant loop. -/
theorem fileLoop_stage_error_propagates (model : Frame → Except Err (List Detection))
    (writeErr : Frame → Option Err) (confThr iouThr : ℚ) (f : Frame)
    (rest : List Frame) (e : Err) :
    ∀ (pre : List Frame) (st : TrackerState),
      (∀ g ∈ pre, ∃ r, model g = Except.ok r) →
      writesOk model writeErr confThr iouThr st pre →
      (model f = Except.error e ∨
        ∃ raw, model f = Except.ok raw ∧
          writeErr ((processFrameCore f raw
            (stateAfter model confThr iouThr st pre) confThr iouThr).1) = some e) →
      (fileLoop model writeErr confThr iouThr st (pre ++ f :: rest)).1
        = Except.error e := by
  intro pre
  induction pre with
  | nil =>
      intro st _ _ herr
      rcases herr with hf | ⟨raw, hraw, hwf⟩
      · simp only [List.nil_append, fileLoop, processFrameE, hf]
      · simp only [stateAfter] at hwf
        simp only [List.nil_append, fileLoop, processFrameE, hraw, hwf]
  | cons g gs ih =>
      intro st hpre hwo herr
      obtain ⟨raw, hraw⟩ := hpre g (List.mem_cons_self g gs)
      simp only [writesOk, hraw] at hwo
      have hsa : stateAfter model confThr iouThr st (g :: gs)
          = stateAfter model confThr iouThr
              (processFrameCore g raw st confThr iouThr).2 gs := by
        simp only [stateAfter, hraw]
      rw [hsa] at herr
      simp only [List.cons_append, fileLoop, processFrameE, hraw, hwo.1]
      exact ih (processFrameCore g raw st confThr iouThr).2
        (fun x hx => hpre x (List.mem_cons_of_mem g hx)) hwo.2 herr

/-- A detection failure on the frame following an error-free, quit-free
processed stretch propagates out of the Display-variant loop. -/
theorem displayLoop_error_propagates (model : Frame → Except Err (List Detection))
    (confThr iouThr : ℚ) (keys : Nat → Int) (f : Frame)
    (rest : List Frame) (e : Err) (hf : model f = Except.error e)
    (hq : ∀ m, quitSignal (keys m) = false) :
    ∀ (pre : List Frame) j st, (∀ g ∈ pre, ∃ r, model g = Except.ok r) →
      (displayLoop model confThr iouThr keys j st (pre ++ f :: rest)).1
        = Except.error e := by
  intro pre
  induction pre with
  | nil =>
      intro j st _
      simp only [List.nil_append, displayLoop, processFrameE, hf]
  | cons g gs ih =>
      intro j st hpre
      obtain ⟨raw, hraw⟩ := hpre g (List.mem_cons_self g gs)
      have ihr := ih (j + 1) (processFrameCore g raw st confThr iouThr).2
        (fun x hx => hpre x (List.mem_cons_of_mem g hx))
      simp only [List.cons_append, displayLoop, processFrameE, hraw, hq,
        Bool.false_eq_true, if_false]
      exact ihr

/-- Counterexample to claim C6 as stated: in the Display variant a
detection failure propagates to the caller with the display resource
left unreleased — cv2.destroyAllWindows at line 39 is skipped when the
loop body raises, since no scope guards the display loop. -/
theorem display_error_teardown_counterexample :
    (runDisplayVariant (fun _ => Except.error Err.detectionFailure) 0 0 (fun _ => -1)
        initialTrackerState [[0]]).result = Except.error Err.detectionFailure ∧
    (runDisplayVariant (fun _ => Except.error Err.detectionFailure) 0 0 (fun _ => -1)
        initialTrackerState [[0]]).released = false :=
  ⟨rfl, rfl⟩

/-- Claim C6 (amended): every error raised during a run — a detection
failure on a frame or a sink-write failure on its annotated output —
propagates to the caller of process_video, none is silently swallowed;
before the error surfaces the File variant finalizes its sink, but the
Display variant (whose only raising stage is detection, having no write
step) does not release the display resource — teardown runs only on
normal completion or quit. -/
theorem errors_propagate_release_varies (model : Frame → Except Err (List Detection))
    (writeErr : Frame → Option Err) (confThr iouThr : ℚ) (keys : Nat → Int)
    (st : TrackerState) (pre : List Frame) (f : Frame) (rest : List Frame) (e : Err)
    (hpre : ∀ g ∈ pre, ∃ r, model g = Except.ok r)
    (hwpre : writesOk model writeErr confThr iouThr st pre)
    (hq : ∀ m, quitSignal (keys m) = false)
    (herr : model f = Except.error e ∨
      ∃ raw, model f = Except.ok raw ∧
        writeErr ((processFrameCore f raw
          (stateAfter model confThr iouThr st pre) confThr iouThr).1) = some e) :
    (runFileVariant model writeErr confThr iouThr st (pre ++ f :: rest)).result
      = Except.error e ∧
    (runFileVariant model writeErr confThr iouThr st (pre ++ f :: rest)).released
      = true ∧
    (model f = Except.error e →
      (runDisplayVariant model confThr iouThr keys st (pre ++ f :: rest)).result
        = Except.error e ∧
      (runDisplayVariant model confThr iouThr keys st (pre ++ f :: rest)).released
        = false) := by
  have hfile := fileLoop_stage_error_propagates model writeErr confThr iouThr f rest e
    pre st hpre hwpre herr
  refine ⟨hfile, rfl, fun hf => ?_⟩
  have hdisp := displayLoop_error_propagates model confThr iouThr keys f rest e
    hf hq pre 0 st hpre
  exact ⟨hdisp, by simp only [runDisplayVariant, hdisp]⟩

/-- Witness for the amended claim C6 on a concrete File run whose
sink write fails on the second frame (the tracker emits no detections,
so the annotated frame equals the frame itself). -/
theorem errors_propagate_release_varies_witness :
    (runFileVariant (fun _ => Except.ok [])
        (fun g => if g = [1] then some Err.sinkFailure else none)
        0 0 initialTrackerState ([[0]] ++ [1] :: [])).result
      = Except.error Err.sinkFailure ∧
    (runFileVariant (fun _ => Except.ok [])
        (fun g => if g = [1] then some Err.sinkFailure else none)
        0 0 initialTrackerState ([[0]] ++ [1] :: [])).released
      = true := by
  have hq : ∀ m : Nat, quitSignal ((fun _ => (-1 : Int)) m) = false := by
    intro m
    show quitSignal (-1) = false
    decide
  have h := errors_propagate_release_varies (fun _ => Except.ok [])
    (fun g => if g = [1] then some Err.sinkFailure else none)
    0 0 (fun _ => -1) initialTrackerState [[0]] [1] [] Err.sinkFailure
    (fun _ _ => ⟨[], rfl⟩)
    ⟨rfl, trivial⟩
    hq
    (Or.inr ⟨[], rfl, rfl⟩)
  exact ⟨h.1, h.2.1⟩

/-- When the per-frame poll first reports the quit signal at frame index
k of an error-free run, the Display-variant loop completes normally
right after that frame: the tracker saw exactly the first k+1 frames and
exactly k+1 frames were displayed. -/
theorem displayLoop_quit (model : Frame → Except Err (List Detection))
    (confThr iouThr : ℚ) (keys : Nat → Int) :
    ∀ (frames : List Frame) (k j : Nat) (st : TrackerState), k < frames.length →
      (∀ f ∈ frames, ∃ r, model f = Except.ok r) →
      (∀ m, m < k → quitSignal (keys (j + m)) = false) →
      quitSignal (keys (j + k)) = true →
      (displayLoop model confThr iouThr keys j st frames).1 = Except.ok () ∧
      (displayLoop model confThr iouThr keys j st frames).2.2 = frames.take (k + 1) ∧
      (displayLoop model confThr iouThr keys j st frames).2.1.length = k + 1 := by
  intro frames
  induction frames with
  | nil => intro k j st hk; exact absurd hk (by simp)
  | cons f fs ih =>
      intro k j st hk hm hb hq
      obtain ⟨raw, hraw⟩ := hm f (List.mem_cons_self f fs)
      cases k with
      | zero =>
          have hq0 : quitSignal (keys j) = true := by simpa using hq
          refine ⟨?_, ?_, ?_⟩ <;> simp [displayLoop, processFrameE, hraw, hq0]
      | succ m =>
          have h0 : quitSignal (keys j) = false := by
            have := hb 0 (Nat.succ_pos m)
            simpa using this
          have hb2 : ∀ m2, m2 < m → quitSignal (keys (j + 1 + m2)) = false := by
            intro m2 hm2
            have := hb (m2 + 1) (Nat.succ_lt_succ hm2)
            have harr : j + (m2 + 1) = j + 1 + m2 := by omega
            rwa [harr] at this
          have hq2 : quitSignal (keys (j + 1 + m)) = true := by
            have harr : j + (m + 1) = j + 1 + m := by omega
            rwa [harr] at hq
          have hk2 : m < fs.length := by
            have : m + 1 < fs.length + 1 := by simpa using hk
            omega
          have ihr := ih m (j + 1) (processFrameCore f raw st confThr iouThr).2 hk2
            (fun g hg => hm g (List.mem_cons_of_mem f hg)) hb2 hq2
          simp only [displayLoop, processFrameE, hraw, h0, Bool.false_eq_true, if_false]
          refine ⟨ihr.1, ?_, ?_⟩
          · rw [List.take_succ_cons, ihr.2.1]
          · rw [List.length_cons, ihr.2.2]

/-- Claim C7: in the Display variant, when the quit signal first arrives
after frame k of an error-free run, the frame loop terminates right
after frame k without error, the tracker processed exactly the first
k+1 frames, exactly k+1 frames were displayed, and the display resource
is released. -/
theorem display_quit_terminates_early (model : Frame → Except Err (List Detection))
    (confThr iouThr : ℚ) (keys : Nat → Int) (st : TrackerState)
    (frames : List Frame) (k : Nat)
    (hk : k < frames.length)
    (hm : ∀ f ∈ frames, ∃ r, model f = Except.ok r)
    (hb : ∀ m, m < k → quitSignal (keys m) = false)
    (hq : quitSignal (keys k) = true) :
    (runDisplayVariant model confThr iouThr keys st frames).result = Except.ok () ∧
    (runDisplayVariant model confThr iouThr keys st frames).released = true ∧
    (runDisplayVariant model confThr iouThr keys st frames).updateTrace
      = frames.take (k + 1) ∧
    (runDisplayVariant model confThr iouThr keys st frames).displayed.length = k + 1 := by
  have hb0 : ∀ m, m < k → quitSignal (keys (0 + m)) = false := by simpa using hb
  have hq0 : quitSignal (keys (0 + k)) = true := by simpa using hq
  have h := displayLoop_quit model confThr iouThr keys frames k 0 st hk hm hb0 hq0
  refine ⟨h.1, ?_, h.2.1, h.2.2⟩
  simp only [runDisplayVariant, h.1]

/-- Witness for claim C7: ten frames, quit signal polled true after the
third frame. -/
theorem display_quit_terminates_early_witness :
    2 < ([[0], [1], [2], [3], [4], [5], [6], [7], [8], [9]] : List Frame).length ∧
    quitSignal ((fun i => if i = 2 then (113 : Int) else -1) 2) = true ∧
    (runDisplayVariant (fun _ => Except.ok []) 0 0
        (fun i => if i = 2 then (113 : Int) else -1) initialTrackerState
        [[0], [1], [2], [3], [4], [5], [6], [7], [8], [9]]).updateTrace
      = ([[0], [1], [2], [3], [4], [5], [6], [7], [8], [9]] : List Frame).take 3 ∧
    (runDisplayVariant (fun _ => Except.ok []) 0 0
        (fun i => if i = 2 then (113 : Int) else -1) initialTrackerState
        [[0], [1], [2], [3], [4], [5], [6], [7], [8], [9]]).released = true := by
  have h := display_quit_terminates_early (fun _ => Except.ok []) 0 0
    (fun i => if i = 2 then (113 : Int) else -1) initialTrackerState
    [[0], [1], [2], [3], [4], [5], [6], [7], [8], [9]] 2
    (by decide) (fun _ _ => ⟨[], rfl⟩) (by decide) (by decide)
  exact ⟨by decide, by decide, h.2.2.1, h.2.1⟩
